import Mathlib

/-!
Verification of the `hackathon-submit` pipeline (src/src/run.ts).

The program is a TypeScript script: it clones a repository, summarizes its
source files, asks a text-generation API for a README (extracting a JSON
object from the raw model response), optionally generates images with an
exponential-backoff retry loop on HTTP 429, and fills a submission form.

JavaScript strings are modelled as lists of characters (`Str`); the
JavaScript string library functions used by the source (`split`, `join`,
`slice`, `trim`, `endsWith`, `replace`, regex matching of the one pattern
that occurs) are given explicit executable models below.  Filesystem reads
are assumed to succeed; network calls are abstracted as outcome-valued
inputs to the functions that consume them.
-/

/-- JavaScript strings are modelled as lists of characters. -/
abbrev Str := List Char

/-- Helper for `endsWithL`: does the second list occur at the head of the first? -/
def startsWithL : Str → Str → Bool
  | _, [] => true
  | [], _ :: _ => false
  | c :: cs, p :: ps => c == p && startsWithL cs ps

/-- Model of JavaScript `String.prototype.endsWith`. -/
def endsWithL (s sfx : Str) : Bool := startsWithL s.reverse sfx.reverse

/-- Model of JavaScript `String.prototype.split` with a one-character separator. -/
def jsSplit (sep : Char) : Str → List Str
  | [] => [[]]
  | c :: rest =>
    if c = sep then [] :: jsSplit sep rest
    else
      match jsSplit sep rest with
      | [] => [[c]]
      | l :: ls => (c :: l) :: ls

/-- Model of JavaScript `Array.prototype.join` with a one-character separator. -/
def jsJoin (sep : Char) : List Str → Str
  | [] => []
  | [x] => x
  | x :: y :: xs => x ++ sep :: jsJoin sep (y :: xs)

/-- Model of JavaScript `Array.prototype.join` with a string separator. -/
def joinSep (sep : Str) : List Str → Str
  | [] => []
  | [x] => x
  | x :: y :: xs => x ++ sep ++ joinSep sep (y :: xs)

/-- JavaScript whitespace characters, as removed by `String.prototype.trim`. -/
def jsWhitespace (c : Char) : Bool :=
  c = ' ' || c = '\t' || c = '\n' || c = '\r' || c = '\x0b' || c = '\x0c' ||
  c.toNat = 0xA0 || c.toNat = 0xFEFF || c.toNat = 0x2028 || c.toNat = 0x2029

/-- Model of JavaScript `String.prototype.trim`. -/
def jsTrim (s : Str) : Str :=
  ((s.dropWhile jsWhitespace).reverse.dropWhile jsWhitespace).reverse

/-- Model of JavaScript `String.prototype.slice` with non-negative bounds. -/
def jsSlice (start stop : Nat) (s : Str) : Str := (s.drop start).take (stop - start)

/-- Helper for `replaceFirst`: scan left to right for the first occurrence
of the pattern and delete it. -/
def replaceFirstGo (pat : Str) : Str → Str
  | [] => []
  | c :: rest =>
    if pat.isPrefixOf (c :: rest) then List.drop pat.length (c :: rest)
    else c :: replaceFirstGo pat rest

/-- Model of JavaScript `String.prototype.replace` with a string pattern and
empty replacement: deletes the first occurrence of the pattern. -/
def replaceFirst (s pat : Str) : Str := replaceFirstGo pat s

/-- Model of node `path.join` for the simple two-segment uses in the source. -/
def pathJoin (dir name : Str) : Str := dir ++ '/' :: name

/-! ## Source Summarizer (run.ts, `summarizeFile`, lines 103-159)

Babel's `parse` of a `.js`/`.ts` file is an external library call; it is
supplied as an oracle returning the list of top-level AST nodes (`none`
models a parse failure, which the source logs and swallows leaving the
summary empty).  Only the node shapes inspected by the source's `switch`
are distinguished. -/

/-- Top-level AST node shapes distinguished by `summarizeFile`'s `switch`.
`other` covers every node type the `switch` ignores. -/
inductive TopNode where
  | importDecl (source : Str)
  | exportNamed
  | exportDefault
  | classDecl (id : Option Str)
  | functionDecl (id : Option Str)
  | other
deriving DecidableEq, Repr

/-- The four accumulator arrays built by `summarizeFile`'s `forEach`. -/
structure SummaryAcc where
  imports : List Str
  exports : List Str
  classes : List Str
  functions : List Str
deriving DecidableEq, Repr

/-- One iteration of the `forEach`/`switch` in `summarizeFile` (lines 119-139):
push onto the matching array, guarded by `node.id` for classes/functions. -/
def summarizeStep (acc : SummaryAcc) (node : TopNode) : SummaryAcc :=
  match node with
  | .importDecl s => { acc with imports := acc.imports ++ [s] }
  | .exportNamed => { acc with exports := acc.exports ++ ["ExportNamedDeclaration".toList] }
  | .exportDefault => { acc with exports := acc.exports ++ ["ExportDefaultDeclaration".toList] }
  | .classDecl (some n) => { acc with classes := acc.classes ++ [n] }
  | .classDecl none => acc
  | .functionDecl (some n) => { acc with functions := acc.functions ++ [n] }
  | .functionDecl none => acc
  | .other => acc

/-- Model of `summarizeFile(content, filename)` (run.ts lines 103-159), with
Babel's parser supplied as the oracle `parse`.  Mirrors the `if`/`else if`
chain on the filename extension; a code-file parse failure leaves the
summary empty (the error is only logged). -/
def summarizeFile (parse : Str → Option (List TopNode)) (content : Str) (filename : Str) : Str :=
  if endsWithL filename ".js".toList || endsWithL filename ".ts".toList then
    match parse content with
    | some body =>
      let acc := body.foldl summarizeStep ⟨[], [], [], []⟩
      "- **Imports:** ".toList ++ joinSep ", ".toList acc.imports ++ '\n' ::
      ("- **Exports:** ".toList ++ joinSep ", ".toList acc.exports ++ '\n' ::
      ("- **Classes:** ".toList ++ joinSep ", ".toList acc.classes ++ '\n' ::
      ("- **Functions:** ".toList ++ joinSep ", ".toList acc.functions ++ ['\n'])))
    | none => []
  else if endsWithL filename ".py".toList then
    []
  else if endsWithL filename ".md".toList then
    "- **Content Preview:**\n".toList ++ jsJoin '\n' ((jsSplit '\n' content).take 5) ++ ['\n']
  else
    "- **Summary:** Not available for this file type.\n".toList

/-- The extension allow-list test of `readDirectory` (run.ts lines 79-85). -/
def allowedFile (name : Str) : Bool :=
  endsWithL name ".js".toList || endsWithL name ".ts".toList ||
  endsWithL name ".py".toList || endsWithL name ".java".toList ||
  endsWithL name ".md".toList

/-! ## Directory traversal (run.ts, `readDirectory`, lines 71-100)

The filesystem seen by `readDirectory` is a tree of named files (with their
contents) and named directories.  File reads are assumed to succeed (a read
error in the source merely skips that one file). -/

mutual
/-- A directory entry: a file with its content, or a subdirectory. -/
inductive FsEntry where
  | file (name : Str) (content : Str)
  | dir (name : Str) (entries : FsEntries)

/-- The ordered entries of a directory, as returned by `readdirSync`. -/
inductive FsEntries where
  | nil
  | cons (e : FsEntry) (rest : FsEntries)
end

/-- The chunk appended to the summary for one allowed file (run.ts lines
89-92): a `**File:**` header with the path relative to the immediate parent
directory, then the file summary. -/
def fileSection (dirPath name fileSummary : Str) : Str :=
  "\n\n---\n**File:** ".toList ++ replaceFirst (pathJoin dirPath name) dirPath ++
    '\n' :: (fileSummary ++ ['\n'])

mutual
/-- Model of `readDirectory(dir)` (run.ts lines 71-100) applied to the listed
entries of `dirPath`: recurse into subdirectories, and append one section per
file whose name passes the extension allow-list. -/
def readDirList (parse : Str → Option (List TopNode)) (dirPath : Str) : FsEntries → Str
  | .nil => []
  | .cons e rest => readDirEntry parse dirPath e ++ readDirList parse dirPath rest

/-- The contribution of a single directory entry to `readDirectory`'s output. -/
def readDirEntry (parse : Str → Option (List TopNode)) (dirPath : Str) : FsEntry → Str
  | .file name content =>
    if allowedFile name then
      fileSection dirPath name (summarizeFile parse content name)
    else []
  | .dir name sub => readDirList parse (pathJoin dirPath name) sub
end

mutual
/-- Every file of the tree, at any depth, in traversal order, paired with the
path of its immediate parent directory: `(parentDir, name, content)`. -/
def filesList (dirPath : Str) : FsEntries → List (Str × Str × Str)
  | .nil => []
  | .cons e rest => filesOfEntry dirPath e ++ filesList dirPath rest

/-- The files contributed by one directory entry, with their parent paths. -/
def filesOfEntry (dirPath : Str) : FsEntry → List (Str × Str × Str)
  | .file name content => [(dirPath, name, content)]
  | .dir name sub => filesList (pathJoin dirPath name) sub
end

/-! ## README generation (run.ts, `createReadme`, lines 162-217)

The model response is the input string; the code extracts the first-to-last
brace span with the regex `/\x7b[\s\S]*\x7d/` (greedy: from the first `{` to
the last `}` of the response), strips the C0/C1 control characters, parses
the result as JSON and projects three trimmed fields.  `JSON.parse` is an
external library call; `parseJsonObj` below models it restricted to objects
whose values are string literals — the shape the prompt requests. -/

/-- The error thrown by `createReadme`'s catch-all handler (run.ts line 215). -/
def parseFailureMsg : String := "Failed to parse JSON from OpenAI response"

/-- Model of `responseContent.match(/\x7b[\s\S]*\x7d/)` (run.ts line 195):
the span from the first `{` of the string to the last `}` after it, or
`none` when no such span exists. -/
def extractJsonBlock (cs : Str) : Option Str :=
  let t := cs.dropWhile (fun c => c != '{')
  if t = [] then none
  else
    let b := (t.reverse.dropWhile (fun c => c != '}')).reverse
    if b = [] then none else some b

/-- The character class `[\u0000-\u001F\u007F-\u009F]` of run.ts line 203. -/
def isStrippedCtl (c : Char) : Bool :=
  c.toNat ≤ 0x1F || (0x7F ≤ c.toNat && c.toNat ≤ 0x9F)

/-- Model of the control-character stripping of run.ts line 203. -/
def sanitize (s : Str) : Str := s.filter (fun c => !isStrippedCtl c)

/-- JSON whitespace, as skipped by `JSON.parse` between tokens. -/
def jsonWs (c : Char) : Bool := c = ' ' || c = '\t' || c = '\n' || c = '\r'

/-- Hexadecimal digit test for `\u` escapes. -/
def isHexDigitL (c : Char) : Bool :=
  ('0' ≤ c && c ≤ '9') || ('a' ≤ c && c ≤ 'f') || ('A' ≤ c && c ≤ 'F')

/-- Value of a hexadecimal digit. -/
def hexVal (c : Char) : Nat :=
  if '0' ≤ c && c ≤ '9' then c.toNat - '0'.toNat
  else if 'a' ≤ c && c ≤ 'f' then c.toNat - 'a'.toNat + 10
  else c.toNat - 'A'.toNat + 10

/-- Parse a JSON string literal after its opening quote, fuel-bounded;
returns the decoded value and the rest of the input. -/
def parseJString : Nat → Str → Option (Str × Str)
  | 0, _ => none
  | _, [] => none
  | fuel + 1, c :: rest =>
    if c = '"' then some ([], rest)
    else if c = '\\' then
      match rest with
      | [] => none
      | e :: rest2 =>
        let dec : Option (Char × Str) :=
          if e = '"' then some ('"', rest2)
          else if e = '\\' then some ('\\', rest2)
          else if e = '/' then some ('/', rest2)
          else if e = 'n' then some ('\n', rest2)
          else if e = 't' then some ('\t', rest2)
          else if e = 'r' then some ('\r', rest2)
          else if e = 'b' then some ('\x08', rest2)
          else if e = 'f' then some ('\x0c', rest2)
          else if e = 'u' then
            match rest2 with
            | h1 :: h2 :: h3 :: h4 :: rest3 =>
              if isHexDigitL h1 && isHexDigitL h2 && isHexDigitL h3 && isHexDigitL h4 then
                some (Char.ofNat (((hexVal h1 * 16 + hexVal h2) * 16 + hexVal h3) * 16 + hexVal h4), rest3)
              else none
            | _ => none
          else none
        match dec with
        | none => none
        | some (ch, rest') =>
          match parseJString fuel rest' with
          | none => none
          | some (s, r) => some (ch :: s, r)
    else if c.toNat < 0x20 then none
    else
      match parseJString fuel rest with
      | none => none
      | some (s, r) => some (c :: s, r)

/-- Parse the members of a JSON object (after its opening brace, when the
object is nonempty), fuel-bounded: `"key" : "value"` pairs separated by
commas, up to and including the closing brace. -/
def parseMembers (strFuel : Nat) : Nat → Str → Option (List (Str × Str) × Str)
  | 0, _ => none
  | fuel + 1, cs =>
    match cs.dropWhile jsonWs with
    | '"' :: rest =>
      match parseJString strFuel rest with
      | none => none
      | some (key, rest1) =>
        match rest1.dropWhile jsonWs with
        | ':' :: rest2 =>
          match rest2.dropWhile jsonWs with
          | '"' :: rest3 =>
            match parseJString strFuel rest3 with
            | none => none
            | some (val, rest4) =>
              match rest4.dropWhile jsonWs with
              | ',' :: rest5 =>
                match parseMembers strFuel fuel rest5 with
                | none => none
                | some (ms, r) => some ((key, val) :: ms, r)
              | '}' :: rest5 => some ([(key, val)], rest5)
              | _ => none
          | _ => none
        | _ => none
    | _ => none

/-- Model of `JSON.parse` restricted to a single object whose values are
string literals (the shape `createReadme`'s prompt requests): returns the
key/value pairs in textual order, or `none` on any other input. -/
def parseJsonObj (cs : Str) : Option (List (Str × Str)) :=
  match cs.dropWhile jsonWs with
  | '{' :: rest =>
    match rest.dropWhile jsonWs with
    | '}' :: rest2 => if rest2.dropWhile jsonWs = [] then some [] else none
    | _ =>
      match parseMembers (cs.length + 1) (cs.length + 1) rest with
      | none => none
      | some (ms, rest2) => if rest2.dropWhile jsonWs = [] then some ms else none
  | _ => none

/-- Property access on the parsed object: with duplicate keys, `JSON.parse`
keeps the last occurrence. -/
def jsonLookup (fields : List (Str × Str)) (key : Str) : Option Str :=
  (fields.reverse.find? (fun kv => kv.1 == key)).map (fun kv => kv.2)

/-- The record returned by `createReadme` (run.ts lines 208-212). -/
structure ReadmeResult where
  projectName : Str
  briefDescription : Str
  readme : Str
deriving DecidableEq, Repr

/-- Model of `createReadme` (run.ts lines 162-217) as a function of the raw
model response: extract the brace span, strip control characters, parse, and
project the three trimmed fields.  Any failure — no brace span, a parse
failure, or a missing field (whose `.trim()` would throw on `undefined`) —
lands in the catch-all handler, which throws `parseFailureMsg`. -/
def createReadme (responseContent : Str) : Except String ReadmeResult :=
  match extractJsonBlock responseContent with
  | none => .error parseFailureMsg
  | some jsonString =>
    match parseJsonObj (sanitize jsonString) with
    | none => .error parseFailureMsg
    | some data =>
      match jsonLookup data "projectName".toList, jsonLookup data "briefDescription".toList,
            jsonLookup data "readmeContent".toList with
      | some pn, some bd, some rc => .ok ⟨jsTrim pn, jsTrim bd, jsTrim rc⟩
      | some _, some _, none => .error parseFailureMsg
      | some _, none, _ => .error parseFailureMsg
      | none, _, _ => .error parseFailureMsg

/-! ## Asset generator retry loop (run.ts, `generateImages` lines 268-324 and
`generateScreenshots` lines 325-367)

Each iteration of the `while (attempt < maxRetries)` loop runs a try-block
whose outcome depends on the network; the outcome of the attempt at each
index is therefore an input.  A failure carries `error.response?.status`
(`none` models an error with no `response`). -/

/-- Outcome of one try-block iteration of the retry loop. -/
inductive AttemptOutcome (α : Type) where
  | success (value : α)
  | failure (status : Option Nat)
deriving DecidableEq, Repr

/-- Result of the whole retry loop, together with the thrown error when the
loop did not return: a propagated non-429 error (`err`) or retry exhaustion
(`exhausted`, carrying the message of the final `throw`). -/
inductive RunResult (α : Type) where
  | ok (value : α)
  | err (status : Option Nat)
  | exhausted (msg : String)
deriving DecidableEq, Repr

/-- The shared retry skeleton of `generateImages` and `generateScreenshots`
(run.ts lines 272-322 and 329-365): at most `remaining` further attempts
starting at index `attempt`; on a 429 failure record the backoff delay
`Math.pow(2, attempt) * 1000` milliseconds and retry, on any other failure
rethrow, and after the loop throw `exhaustMsg`.  Returns the result and the
list of delays slept, in order. -/
def retryFrom (exhaustMsg : String) (att : Nat → AttemptOutcome α) :
    Nat → Nat → RunResult α × List Nat
  | _, 0 => (.exhausted exhaustMsg, [])
  | attempt, r + 1 =>
    match att attempt with
    | .success v => (.ok v, [])
    | .failure st =>
      if st = some 429 then
        let next := retryFrom exhaustMsg att (attempt + 1) r
        (next.1, 2 ^ attempt * 1000 :: next.2)
      else (.err st, [])

/-- The exhaustion message of `generateImages` (run.ts line 323). -/
def imagesExhaustMsg : String := "Failed to generate images after multiple attempts"

/-- The exhaustion message of `generateScreenshots` (run.ts line 366). -/
def screenshotsExhaustMsg : String := "Failed to generate screenshots after multiple attempts"

/-- Model of `generateImages` (run.ts lines 268-324): `maxRetries = 5`,
starting at attempt 0; a successful try-block yields the logo and cover
paths. -/
def generateImages (att : Nat → AttemptOutcome (Str × Str)) : RunResult (Str × Str) × List Nat :=
  retryFrom imagesExhaustMsg att 0 5

/-- The path `path.join(__dirname, "screenshot" + (i+1) + ".png")` used for
slot `i` (run.ts line 344). -/
def screenshotPath (dirname : Str) (k : Nat) : Str :=
  pathJoin dirname ("screenshot".toList ++ (Nat.repr k).toList ++ ".png".toList)

/-- The `for (let i = 0; i < count; i++)` body of `generateScreenshots`
(run.ts lines 341-350), iterating slots `i, i+1, ...` with `remaining` slots
left: a slot whose response entry has a URL contributes its saved path, a
slot with no URL is only logged and skipped. -/
def screenshotLoop (dirname : Str) (data : List (Option Str)) : Nat → Nat → List Str
  | _, 0 => []
  | i, r + 1 =>
    match data.getD i none with
    | some _ => screenshotPath dirname (i + 1) :: screenshotLoop dirname data (i + 1) r
    | none => screenshotLoop dirname data (i + 1) r

/-- Model of `generateScreenshots` (run.ts lines 325-367): the same retry
skeleton around one batched image request; a successful response carries the
per-slot optional URLs, from which the loop collects the saved paths. -/
def generateScreenshots (responses : Nat → AttemptOutcome (List (Option Str)))
    (dirname : Str) (count : Nat) : RunResult (List Str) × List Nat :=
  retryFrom screenshotsExhaustMsg
    (fun i =>
      match responses i with
      | .success data => .success (screenshotLoop dirname data 0 count)
      | .failure st => .failure st)
    0 5

/-! ## Form filling (run.ts, `main`, lines 531-535) -/

/-- The repository URL literal filled into the GitHub-URL field (line 535). -/
def submittedRepoUrl : Str := "https://github.com/henrikkv/hackathon-submit".toList

/-- The four text fills of the description page (run.ts lines 531-535), as
(placeholder, submitted value) pairs in program order: the brief description
is cut to `slice(0, 279)` for the length-constrained field, the detailed
description goes to the two unconstrained fields in full. -/
def formFills (briefDescription detailedDescription : Str) : List (Str × Str) :=
  [("Exchange onramp/offramp using".toList, jsSlice 0 279 briefDescription),
   ("This project combines a state".toList, detailedDescription),
   ("This project uses the @".toList, detailedDescription),
   ("https://github.com/hackathon/".toList, submittedRepoUrl)]

/-! ## Pipeline control flow (run.ts, `generateReadme`, lines 15-55)

After a successful clone the run summarizes the tree, unconditionally
deletes the temporary clone directory (`fs.rmSync`, line 37), then performs
the two text-generation calls.  Each stage's outcome is an input; the
returned boolean records whether `temp_repo` still exists when the function
returns or throws. -/

/-- The stage at which a run aborted. -/
inductive RunStage where
  | summarizeStage
  | readmeGenStage
  | descGenStage
deriving DecidableEq, Repr

/-- Control-flow model of `generateReadme` (run.ts lines 30-54) after a
successful clone: `.error s` is a throw at stage `s` with no partial result;
the boolean is whether the temporary clone directory still exists at that
point (`fs.rmSync` runs between summarization and README generation). -/
def generateReadmeRun (summaryRes : Except Unit Str)
    (readmeRes : Str → Except Unit ReadmeResult)
    (descRes : Str → Except Unit Str) :
    Except RunStage (ReadmeResult × Str) × Bool :=
  match summaryRes with
  | .error _ => (.error .summarizeStage, true)
  | .ok codeSummary =>
    match readmeRes codeSummary with
    | .error _ => (.error .readmeGenStage, false)
    | .ok r =>
      match descRes codeSummary with
      | .error _ => (.error .descGenStage, false)
      | .ok d => (.ok (r, d), false)

/-! ## Spec-side definitions

These follow the specification's words, to be compared with the source
models above. -/

/-- Spec-side: the first `n` lines of a text, verbatim, joined by newlines —
all of the text when it has fewer than `n` newline-separated lines. -/
def firstLinesSpec : Nat → Str → Str
  | 0, _ => []
  | _ + 1, [] => []
  | 1, c :: rest => if c = '\n' then [] else c :: firstLinesSpec 1 rest
  | n + 2, c :: rest =>
    if c = '\n' then '\n' :: firstLinesSpec (n + 1) rest
    else c :: firstLinesSpec (n + 2) rest

/-- Spec-side: the module source of a top-level import declaration. -/
def importSourceOf : TopNode → Option Str
  | .importDecl s => some s
  | _ => none

/-- Spec-side: the export-statement kind of a top-level export declaration. -/
def exportKindOf : TopNode → Option Str
  | .exportNamed => some "ExportNamedDeclaration".toList
  | .exportDefault => some "ExportDefaultDeclaration".toList
  | _ => none

/-- Spec-side: the name of a named top-level class declaration. -/
def classNameOf : TopNode → Option Str
  | .classDecl (some n) => some n
  | _ => none

/-- Spec-side: the name of a named top-level function declaration. -/
def funcNameOf : TopNode → Option Str
  | .functionDecl (some n) => some n
  | _ => none

/-! ## Helper lemmas -/

theorem startsWithL_head (cs ps : Str) (p : Char)
    (h : startsWithL cs (p :: ps) = true) : cs.head? = some p := by
  cases cs with
  | nil => simp [startsWithL] at h
  | cons c cs' =>
    simp only [startsWithL, Bool.and_eq_true, beq_iff_eq] at h
    simp [h.1]

theorem endsWithL_rev_head (name sfx : Str) (c : Char) (t : Str)
    (h1 : sfx.reverse = c :: t) (h2 : endsWithL name sfx = true) :
    name.reverse.head? = some c := by
  unfold endsWithL at h2
  rw [h1] at h2
  exact startsWithL_head _ _ _ h2

theorem endsWithL_distinct (name s1 s2 : Str) (c1 c2 : Char) (t1 t2 : Str)
    (h1 : s1.reverse = c1 :: t1) (h2 : s2.reverse = c2 :: t2) (hne : c1 ≠ c2)
    (h : endsWithL name s1 = true) : endsWithL name s2 = false := by
  cases hE : endsWithL name s2 with
  | false => rfl
  | true =>
    exfalso
    have a := endsWithL_rev_head name s1 c1 t1 h1 h
    have b := endsWithL_rev_head name s2 c2 t2 h2 hE
    rw [a] at b
    exact hne (Option.some.inj b)

theorem foldl_summarizeStep (body : List TopNode) : ∀ acc : SummaryAcc,
    body.foldl summarizeStep acc =
      ⟨acc.imports ++ body.filterMap importSourceOf,
       acc.exports ++ body.filterMap exportKindOf,
       acc.classes ++ body.filterMap classNameOf,
       acc.functions ++ body.filterMap funcNameOf⟩ := by
  induction body with
  | nil => intro acc; simp
  | cons node rest ih =>
    intro acc
    cases node <;>
      first
      | (rename_i o; cases o <;>
          simp [summarizeStep, ih, importSourceOf, exportKindOf, classNameOf, funcNameOf,
            List.filterMap_cons])
      | simp [summarizeStep, ih, importSourceOf, exportKindOf, classNameOf, funcNameOf,
          List.filterMap_cons]

theorem jsSplit_ne_nil (sep : Char) (cs : Str) : jsSplit sep cs ≠ [] := by
  induction cs with
  | nil => simp [jsSplit]
  | cons c rest ih =>
    simp only [jsSplit]
    split
    · simp
    · split
      · simp
      · simp

theorem jsJoin_cons_head (sep c : Char) (l : Str) (t : List Str) :
    jsJoin sep ((c :: l) :: t) = c :: jsJoin sep (l :: t) := by
  cases t <;> simp [jsJoin]

theorem jsJoin_take_jsSplit (cs : Str) : ∀ n : Nat,
    jsJoin '\n' ((jsSplit '\n' cs).take n) = firstLinesSpec n cs := by
  induction cs with
  | nil =>
    intro n
    rcases n with _ | n
    · rfl
    · simp [jsSplit, jsJoin, firstLinesSpec]
  | cons c rest ih =>
    intro n
    rcases n with _ | (_ | m)
    · rfl
    · by_cases hc : c = '\n'
      · subst hc
        simp [jsSplit, jsJoin, firstLinesSpec]
      · cases hS : jsSplit '\n' rest with
        | nil => exact absurd hS (jsSplit_ne_nil '\n' rest)
        | cons l ls =>
          have h1 := ih 1
          rw [hS] at h1
          simp only [List.take_succ_cons, List.take_zero, jsJoin] at h1
          simp only [jsSplit, if_neg hc, hS, List.take_succ_cons, List.take_zero, jsJoin]
          simp [firstLinesSpec, hc, ← h1]
    · by_cases hc : c = '\n'
      · subst hc
        cases hS : jsSplit '\n' rest with
        | nil => exact absurd hS (jsSplit_ne_nil '\n' rest)
        | cons l ls =>
          have h1 := ih (m + 1)
          rw [hS] at h1
          simp only [List.take_succ_cons] at h1
          simp only [jsSplit, if_pos rfl, hS, List.take_succ_cons]
          simp [jsJoin, firstLinesSpec, h1]
      · cases hS : jsSplit '\n' rest with
        | nil => exact absurd hS (jsSplit_ne_nil '\n' rest)
        | cons l ls =>
          have h1 := ih (m + 2)
          rw [hS] at h1
          simp only [List.take_succ_cons] at h1
          simp only [jsSplit, if_neg hc, hS, List.take_succ_cons]
          rw [jsJoin_cons_head]
          simp [firstLinesSpec, hc, h1]

theorem firstLinesSpec_of_count (cs : Str) : ∀ n : Nat,
    List.count '\n' cs < n → firstLinesSpec n cs = cs := by
  induction cs with
  | nil =>
    intro n hn
    rcases n with _ | n
    · simp at hn
    · simp [firstLinesSpec]
  | cons c rest ih =>
    intro n hn
    by_cases hc : c = '\n'
    · subst hc
      simp only [List.count_cons, beq_self_eq_true, if_true] at hn
      rcases n with _ | (_ | k)
      · omega
      · omega
      · simp [firstLinesSpec, ih (k + 1) (by omega)]
    · have hb : ((c == '\n') : Bool) = false := by simp [hc]
      simp only [List.count_cons, hb, if_false] at hn
      rcases n with _ | (_ | k)
      · omega
      · simp [firstLinesSpec, hc, ih 1 (by omega)]
      · simp [firstLinesSpec, hc, ih (k + 2) (by omega)]

/-! ## Claim theorems -/

/-- C4: for every syntactically valid `.js`/`.ts` file, `summarizeFile`'s
synopsis lists every top-level import's module source, every top-level class
declaration's name, and every top-level function declaration's name, each
list in document order, with no entries beyond those present in the source
file's top level. -/
theorem c4_summarize_code (parse : Str → Option (List TopNode)) (content filename : Str)
    (body : List TopNode)
    (hext : endsWithL filename ".js".toList = true ∨ endsWithL filename ".ts".toList = true)
    (hparse : parse content = some body) :
    summarizeFile parse content filename =
      "- **Imports:** ".toList ++ joinSep ", ".toList (body.filterMap importSourceOf) ++ '\n' ::
      ("- **Exports:** ".toList ++ joinSep ", ".toList (body.filterMap exportKindOf) ++ '\n' ::
      ("- **Classes:** ".toList ++ joinSep ", ".toList (body.filterMap classNameOf) ++ '\n' ::
      ("- **Functions:** ".toList ++ joinSep ", ".toList (body.filterMap funcNameOf) ++ ['\n']))) := by
  have hcond : (endsWithL filename ['.', 'j', 's'] || endsWithL filename ['.', 't', 's']) = true := by
    rcases hext with h | h
    · have h' : endsWithL filename ['.', 'j', 's'] = true := h
      simp only [h', Bool.true_or]
    · have h' : endsWithL filename ['.', 't', 's'] = true := h
      simp only [h', Bool.or_true]
  have h1 := foldl_summarizeStep body ⟨[], [], [], []⟩
  simp [summarizeFile, hcond, hparse, h1]

/-- Witness for C4 at a concrete file with one import, one class, two
functions and an ignored expression statement. -/
theorem c4_witness :
    (endsWithL "app.ts".toList ".ts".toList = true ∨ True) ∧
    summarizeFile
      (fun _ => some [TopNode.importDecl "fs".toList, TopNode.classDecl (some "App".toList),
        TopNode.other, TopNode.functionDecl (some "main".toList),
        TopNode.functionDecl (some "run".toList)])
      "const x = 1".toList "app.ts".toList =
      "- **Imports:** ".toList ++ joinSep ", ".toList
        ([TopNode.importDecl "fs".toList, TopNode.classDecl (some "App".toList),
          TopNode.other, TopNode.functionDecl (some "main".toList),
          TopNode.functionDecl (some "run".toList)].filterMap importSourceOf) ++ '\n' ::
      ("- **Exports:** ".toList ++ joinSep ", ".toList
        ([TopNode.importDecl "fs".toList, TopNode.classDecl (some "App".toList),
          TopNode.other, TopNode.functionDecl (some "main".toList),
          TopNode.functionDecl (some "run".toList)].filterMap exportKindOf) ++ '\n' ::
      ("- **Classes:** ".toList ++ joinSep ", ".toList
        ([TopNode.importDecl "fs".toList, TopNode.classDecl (some "App".toList),
          TopNode.other, TopNode.functionDecl (some "main".toList),
          TopNode.functionDecl (some "run".toList)].filterMap classNameOf) ++ '\n' ::
      ("- **Functions:** ".toList ++ joinSep ", ".toList
        ([TopNode.importDecl "fs".toList, TopNode.classDecl (some "App".toList),
          TopNode.other, TopNode.functionDecl (some "main".toList),
          TopNode.functionDecl (some "run".toList)].filterMap funcNameOf) ++ ['\n']))) :=
  ⟨Or.inl (by decide),
   c4_summarize_code _ _ _ _ (Or.inr (by decide)) rfl⟩

/-- C5: for every `.md` file, the content-preview portion of the synopsis is
exactly the file's first five lines, verbatim (all of its lines when the
file has fewer than five). -/
theorem c5_markdown_preview (parse : Str → Option (List TopNode)) (content filename : Str)
    (h : endsWithL filename ".md".toList = true) :
    summarizeFile parse content filename =
      "- **Content Preview:**\n".toList ++ firstLinesSpec 5 content ++ ['\n'] ∧
    (List.count '\n' content < 5 →
      summarizeFile parse content filename =
        "- **Content Preview:**\n".toList ++ content ++ ['\n']) := by
  have h' : endsWithL filename ['.', 'm', 'd'] = true := h
  have hjs : endsWithL filename ['.', 'j', 's'] = false :=
    endsWithL_distinct filename ['.', 'm', 'd'] ['.', 'j', 's'] 'd' 's' ['m', '.'] ['j', '.']
      (by decide) (by decide) (by decide) h'
  have hts : endsWithL filename ['.', 't', 's'] = false :=
    endsWithL_distinct filename ['.', 'm', 'd'] ['.', 't', 's'] 'd' 's' ['m', '.'] ['t', '.']
      (by decide) (by decide) (by decide) h'
  have hpy : endsWithL filename ['.', 'p', 'y'] = false :=
    endsWithL_distinct filename ['.', 'm', 'd'] ['.', 'p', 'y'] 'd' 'y' ['m', '.'] ['p', '.']
      (by decide) (by decide) (by decide) h'
  have hmain : summarizeFile parse content filename =
      "- **Content Preview:**\n".toList ++ firstLinesSpec 5 content ++ ['\n'] := by
    simp [summarizeFile, hjs, hts, hpy, h', jsJoin_take_jsSplit]
  exact ⟨hmain, fun hcount => by rw [hmain, firstLinesSpec_of_count content 5 hcount]⟩

/-- Witness for C5 at a three-line markdown file. -/
theorem c5_witness :
    endsWithL "README.md".toList ".md".toList = true ∧
    summarizeFile (fun _ => none) "# T\n\nBody".toList "README.md".toList =
      "- **Content Preview:**\n".toList ++ firstLinesSpec 5 "# T\n\nBody".toList ++ ['\n'] ∧
    summarizeFile (fun _ => none) "# T\n\nBody".toList "README.md".toList =
      "- **Content Preview:**\n".toList ++ "# T\n\nBody".toList ++ ['\n'] :=
  ⟨by decide,
   (c5_markdown_preview (fun _ => none) "# T\n\nBody".toList "README.md".toList (by decide)).1,
   (c5_markdown_preview (fun _ => none) "# T\n\nBody".toList "README.md".toList (by decide)).2
     (by decide)⟩

/-- C7 counterexample: a `.py` file falls into the empty `else if` branch of
`summarizeFile` (run.ts lines 148-149), so its synopsis is the empty string,
not a placeholder string. -/
theorem c7_counterexample :
    summarizeFile (fun _ => none) "print(1)".toList "a.py".toList = [] ∧
    ([] : Str) ≠ "- **Summary:** Not available for this file type.\n".toList := by
  exact ⟨by decide, by decide⟩

/-- C7 amended: among the allowed extensions that are neither parsed code
nor markdown, only `.java` files get the placeholder synopsis; `.py` files
get an empty synopsis (the Python branch is an empty stub). -/
theorem c7_placeholder_amended (parse : Str → Option (List TopNode)) (content name : Str) :
    (endsWithL name ".java".toList = true →
      summarizeFile parse content name =
        "- **Summary:** Not available for this file type.\n".toList) ∧
    (endsWithL name ".py".toList = true →
      summarizeFile parse content name = []) := by
  constructor
  · intro h
    have h' : endsWithL name ['.', 'j', 'a', 'v', 'a'] = true := h
    have hjs : endsWithL name ['.', 'j', 's'] = false :=
      endsWithL_distinct name ['.', 'j', 'a', 'v', 'a'] ['.', 'j', 's'] 'a' 's'
        ['v', 'a', 'j', '.'] ['j', '.'] (by decide) (by decide) (by decide) h'
    have hts : endsWithL name ['.', 't', 's'] = false :=
      endsWithL_distinct name ['.', 'j', 'a', 'v', 'a'] ['.', 't', 's'] 'a' 's'
        ['v', 'a', 'j', '.'] ['t', '.'] (by decide) (by decide) (by decide) h'
    have hpy : endsWithL name ['.', 'p', 'y'] = false :=
      endsWithL_distinct name ['.', 'j', 'a', 'v', 'a'] ['.', 'p', 'y'] 'a' 'y'
        ['v', 'a', 'j', '.'] ['p', '.'] (by decide) (by decide) (by decide) h'
    have hmd : endsWithL name ['.', 'm', 'd'] = false :=
      endsWithL_distinct name ['.', 'j', 'a', 'v', 'a'] ['.', 'm', 'd'] 'a' 'd'
        ['v', 'a', 'j', '.'] ['m', '.'] (by decide) (by decide) (by decide) h'
    simp [summarizeFile, hjs, hts, hpy, hmd]
  · intro h
    have h' : endsWithL name ['.', 'p', 'y'] = true := h
    have hjs : endsWithL name ['.', 'j', 's'] = false :=
      endsWithL_distinct name ['.', 'p', 'y'] ['.', 'j', 's'] 'y' 's' ['p', '.'] ['j', '.']
        (by decide) (by decide) (by decide) h'
    have hts : endsWithL name ['.', 't', 's'] = false :=
      endsWithL_distinct name ['.', 'p', 'y'] ['.', 't', 's'] 'y' 's' ['p', '.'] ['t', '.']
        (by decide) (by decide) (by decide) h'
    simp [summarizeFile, hjs, hts, h']

/-- Witness for the amended C7 at one `.java` and one `.py` file. -/
theorem c7_witness :
    endsWithL "Main.java".toList ".java".toList = true ∧
    endsWithL "b.py".toList ".py".toList = true ∧
    summarizeFile (fun _ => none) "class Main".toList "Main.java".toList =
      "- **Summary:** Not available for this file type.\n".toList ∧
    summarizeFile (fun _ => none) "print(1)".toList "b.py".toList = [] :=
  ⟨by decide, by decide,
   (c7_placeholder_amended (fun _ => none) "class Main".toList "Main.java".toList).1 (by decide),
   (c7_placeholder_amended (fun _ => none) "print(1)".toList "b.py".toList).2 (by decide)⟩

mutual
theorem readDirList_sections (parse : Str → Option (List TopNode)) (dirPath : Str)
    (es : FsEntries) :
    readDirList parse dirPath es =
      List.join (((filesList dirPath es).filter (fun f => allowedFile f.2.1)).map
        (fun f => fileSection f.1 f.2.1 (summarizeFile parse f.2.2 f.2.1))) := by
  cases es with
  | nil => rfl
  | cons e rest =>
    simp only [readDirList, filesList, List.filter_append, List.map_append, List.join_append,
      readDirEntry_sections parse dirPath e, readDirList_sections parse dirPath rest]

theorem readDirEntry_sections (parse : Str → Option (List TopNode)) (dirPath : Str)
    (e : FsEntry) :
    readDirEntry parse dirPath e =
      List.join (((filesOfEntry dirPath e).filter (fun f => allowedFile f.2.1)).map
        (fun f => fileSection f.1 f.2.1 (summarizeFile parse f.2.2 f.2.1))) := by
  cases e with
  | file name content =>
    by_cases h : allowedFile name = true
    · simp [readDirEntry, filesOfEntry, h]
    · simp [readDirEntry, filesOfEntry, h]
  | dir name sub =>
    simp only [readDirEntry, filesOfEntry, readDirList_sections parse (pathJoin dirPath name) sub]
end

/-- C3: the output of `readDirectory` is exactly the concatenation of one
`File:` section per file of the tree whose extension is in the allow-list,
in traversal order, at any nesting depth — and no section for any other
file; every section begins with the `**File:**` marker. -/
theorem c3_readDirectory_sections (parse : Str → Option (List TopNode)) (dirPath : Str)
    (entries : FsEntries) :
    readDirList parse dirPath entries =
      List.join (((filesList dirPath entries).filter (fun f => allowedFile f.2.1)).map
        (fun f => fileSection f.1 f.2.1 (summarizeFile parse f.2.2 f.2.1))) ∧
    ∀ d n s : Str, "\n\n---\n**File:** ".toList <+: fileSection d n s := by
  refine ⟨readDirList_sections parse dirPath entries, fun d n s => ?_⟩
  refine ⟨replaceFirst (pathJoin d n) d ++ '\n' :: (s ++ ['\n']), ?_⟩
  simp [fileSection]

theorem dropWhile_append_all {p : Char → Bool} (l1 l2 : Str) (h : ∀ c ∈ l1, p c = true) :
    (l1 ++ l2).dropWhile p = l2.dropWhile p := by
  induction l1 with
  | nil => simp
  | cons c rest ih =>
    have hc : p c = true := h c (by simp)
    simp only [List.cons_append, List.dropWhile_cons, hc, if_true]
    exact ih (fun c hc2 => h c (by simp [hc2]))

theorem extractJsonBlock_spec (pre block post : Str)
    (hpre : ∀ c ∈ pre, c ≠ '{') (hpost : ∀ c ∈ post, c ≠ '}')
    (hhead : block.head? = some '{') (hlast : block.getLast? = some '}') :
    extractJsonBlock (pre ++ block ++ post) = some block := by
  obtain ⟨bt, rfl⟩ : ∃ bt, block = '{' :: bt := by
    cases block with
    | nil => simp at hhead
    | cons b bt =>
      have hb : b = '{' := by simpa using hhead
      exact ⟨bt, by rw [hb]⟩
  obtain ⟨s, hs⟩ : ∃ s, ('{' :: bt).reverse = '}' :: s := by
    cases hrv : ('{' :: bt).reverse with
    | nil => simp at hrv
    | cons r rs =>
      refine ⟨rs, ?_⟩
      have hh : ('{' :: bt).reverse.head? = some '}' := by
        rw [List.head?_reverse]
        exact hlast
      rw [hrv] at hh
      have hr : r = '}' := by simpa using hh
      rw [hr]
  have h1 : (pre ++ ('{' :: bt) ++ post).dropWhile (fun c => c != '{') =
      '{' :: (bt ++ post) := by
    rw [List.append_assoc]
    rw [dropWhile_append_all pre (('{' :: bt) ++ post)
      (fun c hc => by simpa using hpre c hc)]
    simp [List.dropWhile_cons]
  have h2 : ((('{' :: (bt ++ post)).reverse).dropWhile (fun c => c != '}')).reverse =
      '{' :: bt := by
    have e1 : ('{' :: (bt ++ post)) = ('{' :: bt) ++ post := by simp
    rw [e1, List.reverse_append]
    rw [dropWhile_append_all post.reverse (('{' :: bt).reverse)
      (fun c hc => by simpa using hpost c (List.mem_reverse.mp hc))]
    rw [hs]
    simp only [List.dropWhile_cons]
    rw [if_neg (by simp)]
    rw [← hs, List.reverse_reverse]
  simp only [extractJsonBlock, h1]
  rw [if_neg (by simp)]
  simp only [h2]
  rw [if_neg (by simp)]

/-- C1: when the model response is prose around a single well-formed JSON
object (no `{` before it, no `}` after it), `createReadme` recovers exactly
the embedded object and returns its `projectName`, `briefDescription` and
`readmeContent` values with only leading/trailing whitespace removed; and
for every response with no `{` at all it fails with the parse error. -/
theorem c1_createReadme_json_extraction :
    (∀ pre block post : Str, ∀ data : List (Str × Str), ∀ pn bd rc : Str,
      (∀ c ∈ pre, c ≠ '{') → (∀ c ∈ post, c ≠ '}') →
      block.head? = some '{' → block.getLast? = some '}' →
      parseJsonObj (sanitize block) = some data →
      jsonLookup data "projectName".toList = some pn →
      jsonLookup data "briefDescription".toList = some bd →
      jsonLookup data "readmeContent".toList = some rc →
      createReadme (pre ++ block ++ post) = .ok ⟨jsTrim pn, jsTrim bd, jsTrim rc⟩) ∧
    (∀ cs : Str, (∀ c ∈ cs, c ≠ '{') → createReadme cs = .error parseFailureMsg) := by
  constructor
  · intro pre block post data pn bd rc hpre hpost hhead hlast hparse hpn hbd hrc
    have hx := extractJsonBlock_spec pre block post hpre hpost hhead hlast
    simp only [createReadme, hx, hparse, hpn, hbd, hrc]
  · intro cs h
    have hdrop : cs.dropWhile (fun c => c != '{') = [] :=
      List.dropWhile_eq_nil_iff.mpr (fun c hc => by simpa using h c hc)
    simp [createReadme, extractJsonBlock, hdrop]

/-- Witness for C1: a concrete response with prose around the JSON block,
and a concrete response with no brace. -/
theorem c1_witness :
    (∀ c ∈ ("Sure, here is the JSON: ".toList : Str), c ≠ '{') ∧
    createReadme ("Sure, here is the JSON: ".toList ++
        "\x7b\"projectName\": \" My Project \", \"briefDescription\": \"A tool\", \"readmeContent\": \"# My Project\"\x7d".toList ++
        " - hope this helps!".toList) =
      .ok ⟨jsTrim " My Project ".toList, jsTrim "A tool".toList, jsTrim "# My Project".toList⟩ ∧
    createReadme "there is no json here at all".toList = .error parseFailureMsg :=
  ⟨by decide,
   c1_createReadme_json_extraction.1
     "Sure, here is the JSON: ".toList
     "\x7b\"projectName\": \" My Project \", \"briefDescription\": \"A tool\", \"readmeContent\": \"# My Project\"\x7d".toList
     " - hope this helps!".toList
     [("projectName".toList, " My Project ".toList),
      ("briefDescription".toList, "A tool".toList),
      ("readmeContent".toList, "# My Project".toList)]
     " My Project ".toList "A tool".toList "# My Project".toList
     (by decide) (by decide) (by decide) (by decide) (by decide) (by decide) (by decide)
     (by decide),
   c1_createReadme_json_extraction.2 "there is no json here at all".toList (by decide)⟩

/-- C9: when the extracted JSON parses but one of the three expected fields
is absent, `createReadme` returns no partial result: it fails with the same
parse-failure error as when no JSON is found. -/
theorem c9_missing_field (cs block : Str) (data : List (Str × Str))
    (hx : extractJsonBlock cs = some block)
    (hparse : parseJsonObj (sanitize block) = some data)
    (hmiss : jsonLookup data "projectName".toList = none ∨
      jsonLookup data "briefDescription".toList = none ∨
      jsonLookup data "readmeContent".toList = none) :
    createReadme cs = .error parseFailureMsg := by
  simp only [createReadme, hx, hparse]
  rcases hmiss with h | h | h <;> rw [h] <;>
    cases hp : jsonLookup data "projectName".toList <;>
    cases hb : jsonLookup data "briefDescription".toList <;>
    cases hr : jsonLookup data "readmeContent".toList <;>
    simp_all

/-- Witness for C9: a parsed object containing only `projectName`. -/
theorem c9_witness :
    extractJsonBlock "\x7b\"projectName\": \"A\"\x7d".toList =
      some "\x7b\"projectName\": \"A\"\x7d".toList ∧
    createReadme "\x7b\"projectName\": \"A\"\x7d".toList = .error parseFailureMsg :=
  ⟨by decide,
   c9_missing_field "\x7b\"projectName\": \"A\"\x7d".toList
     "\x7b\"projectName\": \"A\"\x7d".toList
     [("projectName".toList, "A".toList)]
     (by decide) (by decide) (Or.inr (Or.inl (by decide)))⟩

theorem retryFrom_congr {α : Type} (msg : String) (att att' : Nat → AttemptOutcome α) :
    ∀ (r a : Nat), (∀ i, a ≤ i → i < a + r → att i = att' i) →
    retryFrom msg att a r = retryFrom msg att' a r := by
  intro r
  induction r with
  | zero => intro a _; rfl
  | succ r ih =>
    intro a h
    have ha : att a = att' a := h a (Nat.le_refl a) (by omega)
    simp only [retryFrom, ha]
    cases att' a with
    | success v => rfl
    | failure st =>
      dsimp only
      by_cases h429 : st = some 429
      · rw [if_pos h429, if_pos h429, ih (a + 1) (fun i h1 h2 => h i (by omega) (by omega))]
      · rw [if_neg h429, if_neg h429]

theorem retryFrom_skip {α : Type} (msg : String) (att : Nat → AttemptOutcome α) :
    ∀ (k a r : Nat), k ≤ r → (∀ i, i < k → att (a + i) = .failure (some 429)) →
    retryFrom msg att a r =
      ((retryFrom msg att (a + k) (r - k)).1,
       (List.range k).map (fun i => 2 ^ (a + i) * 1000) ++ (retryFrom msg att (a + k) (r - k)).2) := by
  intro k
  induction k with
  | zero => intro a r _ _; simp
  | succ k ih =>
    intro a r hk h
    obtain ⟨r', rfl⟩ : ∃ r', r = r' + 1 := ⟨r - 1, by omega⟩
    have ha : att a = .failure (some 429) := by simpa using h 0 (by omega)
    have hrec := ih (a + 1) r' (by omega) (fun i hi => by
      have hsh := h (i + 1) (by omega)
      have e : a + (i + 1) = a + 1 + i := by omega
      rw [e] at hsh
      exact hsh)
    have e1 : a + (k + 1) = a + 1 + k := by omega
    have e2 : r' + 1 - (k + 1) = r' - k := by omega
    rw [e1, e2]
    simp only [retryFrom, ha, if_pos rfl]
    rw [hrec]
    have e3 : (fun i => 2 ^ (a + 1 + i) * 1000) = (fun i => 2 ^ (a + (i + 1)) * 1000) :=
      funext fun i => by rw [show a + 1 + i = a + (i + 1) from by omega]
    simp only [List.range_succ_eq_map, List.map_cons, List.map_map]
    refine congrArg (fun w => (_, w)) ?_
    simp only [Nat.add_zero, List.cons_append]
    refine congrArg (fun w => 2 ^ a * 1000 :: w) ?_
    refine congrArg (fun w => w ++ _) ?_
    rw [e3]
    rfl

/-- C2: the asset generators make at most 5 attempts; after the k-th
attempt fails with HTTP 429 they wait `2^k * 1000` milliseconds (= `2^k`
seconds, so 1, 2, 4, 8, 16 s) before retrying; a non-429 failure is
propagated immediately with no further attempt; and five 429 failures in a
row exhaust the retries with the image/screenshot generation error. -/
theorem c2_retry_policy :
    (∀ att att' : Nat → AttemptOutcome (Str × Str),
      (∀ i, i < 5 → att i = att' i) → generateImages att = generateImages att') ∧
    (∀ att : Nat → AttemptOutcome (Str × Str),
      (∀ i, i < 5 → att i = .failure (some 429)) →
      generateImages att = (.exhausted imagesExhaustMsg, [1000, 2000, 4000, 8000, 16000])) ∧
    (∀ att : Nat → AttemptOutcome (Str × Str), ∀ k : Nat, ∀ v : Str × Str,
      k < 5 → (∀ i, i < k → att i = .failure (some 429)) → att k = .success v →
      generateImages att = (.ok v, (List.range k).map (fun i => 2 ^ i * 1000))) ∧
    (∀ att : Nat → AttemptOutcome (Str × Str), ∀ k : Nat, ∀ st : Option Nat,
      k < 5 → (∀ i, i < k → att i = .failure (some 429)) → att k = .failure st →
      st ≠ some 429 →
      generateImages att = (.err st, (List.range k).map (fun i => 2 ^ i * 1000))) ∧
    (∀ responses : Nat → AttemptOutcome (List (Option Str)), ∀ dirname : Str, ∀ count : Nat,
      (∀ i, i < 5 → responses i = .failure (some 429)) →
      generateScreenshots responses dirname count =
        (.exhausted screenshotsExhaustMsg, [1000, 2000, 4000, 8000, 16000])) ∧
    (∀ responses : Nat → AttemptOutcome (List (Option Str)), ∀ dirname : Str,
      ∀ count k : Nat, ∀ st : Option Nat,
      k < 5 → (∀ i, i < k → responses i = .failure (some 429)) →
      responses k = .failure st → st ≠ some 429 →
      generateScreenshots responses dirname count =
        (.err st, (List.range k).map (fun i => 2 ^ i * 1000))) := by
  refine ⟨?_, ?_, ?_, ?_, ?_, ?_⟩
  · intro att att' h
    exact retryFrom_congr imagesExhaustMsg att att' 5 0 (fun i h1 h2 => h i (by omega))
  · intro att h
    have hskip := retryFrom_skip imagesExhaustMsg att 5 0 5 (Nat.le_refl 5)
      (fun i hi => by simpa using h i hi)
    simp only [generateImages, hskip]
    simp [retryFrom]
    decide
  · intro att k v hk h429 hsucc
    have hskip := retryFrom_skip imagesExhaustMsg att k 0 5 (by omega)
      (fun i hi => by simpa using h429 i hi)
    obtain ⟨m, hm⟩ : ∃ m, 5 - k = m + 1 := ⟨5 - k - 1, by omega⟩
    simp only [generateImages, hskip, hm, Nat.zero_add]
    simp [retryFrom, hsucc]
  · intro att k st hk h429 hfail hne
    have hskip := retryFrom_skip imagesExhaustMsg att k 0 5 (by omega)
      (fun i hi => by simpa using h429 i hi)
    obtain ⟨m, hm⟩ : ∃ m, 5 - k = m + 1 := ⟨5 - k - 1, by omega⟩
    simp only [generateImages, hskip, hm, Nat.zero_add]
    simp [retryFrom, hfail, hne]
  · intro responses dirname count h
    have hskip := retryFrom_skip screenshotsExhaustMsg
      (fun i =>
        match responses i with
        | .success data => .success (screenshotLoop dirname data 0 count)
        | .failure st => .failure st)
      5 0 5 (Nat.le_refl 5)
      (fun i hi => by simp [h i (by omega)])
    simp only [generateScreenshots, hskip]
    simp [retryFrom]
    decide
  · intro responses dirname count k st hk h429 hfail hne
    have hskip := retryFrom_skip screenshotsExhaustMsg
      (fun i =>
        match responses i with
        | .success data => .success (screenshotLoop dirname data 0 count)
        | .failure st => .failure st)
      k 0 5 (by omega)
      (fun i hi => by simp [h429 i (by omega)])
    obtain ⟨m, hm⟩ : ∃ m, 5 - k = m + 1 := ⟨5 - k - 1, by omega⟩
    simp only [generateScreenshots, hskip, hm, Nat.zero_add]
    simp [retryFrom, hfail, hne]

/-- Witness for C2: two 429 failures followed by a success yield the success
after delays of exactly 1000 and 2000 milliseconds. -/
theorem c2_witness :
    ((2 : Nat) < 5 ∧
      (fun i : Nat =>
        (match i with
        | 0 => AttemptOutcome.failure (some 429)
        | 1 => AttemptOutcome.failure (some 429)
        | _ => AttemptOutcome.success ("logo.png".toList, "cover.png".toList) :
          AttemptOutcome (Str × Str))) 2 =
        .success ("logo.png".toList, "cover.png".toList)) ∧
    generateImages
      (fun i : Nat =>
        match i with
        | 0 => AttemptOutcome.failure (some 429)
        | 1 => AttemptOutcome.failure (some 429)
        | _ => AttemptOutcome.success ("logo.png".toList, "cover.png".toList)) =
      (.ok ("logo.png".toList, "cover.png".toList),
        (List.range 2).map (fun i => 2 ^ i * 1000)) :=
  ⟨⟨by omega, rfl⟩,
   c2_retry_policy.2.2.1
     (fun i : Nat =>
       match i with
       | 0 => AttemptOutcome.failure (some 429)
       | 1 => AttemptOutcome.failure (some 429)
       | _ => AttemptOutcome.success ("logo.png".toList, "cover.png".toList))
     2 ("logo.png".toList, "cover.png".toList) (by omega)
     (fun i hi => by interval_cases i <;> rfl) rfl⟩

theorem screenshotLoop_spec (dirname : Str) (data : List (Option Str)) :
    ∀ r i : Nat, screenshotLoop dirname data i r =
      ((List.range' i r).filter (fun j => (data.getD j none).isSome)).map
        (fun j => screenshotPath dirname (j + 1)) := by
  intro r
  induction r with
  | zero => intro i; rfl
  | succ r ih =>
    intro i
    rw [List.range'_succ]
    cases hd : (data[i]?).getD none with
    | some u => simp [screenshotLoop, List.getD, hd, ih (i + 1), List.filter_cons]
    | none => simp [screenshotLoop, List.getD, hd, ih (i + 1), List.filter_cons]

/-- C10: `generateScreenshots` returns at most `count` paths, exactly those
of the response slots `0 ≤ i < count` that carry a URL, in increasing
slot-index order (`screenshot1 .. screenshotN`); a slot with a missing URL
is skipped without failing, so the list may be shorter than `count`. -/
theorem c10_screenshots (dirname : Str) (data : List (Option Str)) (count : Nat)
    (responses : Nat → AttemptOutcome (List (Option Str))) :
    (screenshotLoop dirname data 0 count).length ≤ count ∧
    screenshotLoop dirname data 0 count =
      ((List.range count).filter (fun j => (data.getD j none).isSome)).map
        (fun j => screenshotPath dirname (j + 1)) ∧
    (responses 0 = .success data →
      generateScreenshots responses dirname count =
        (.ok (screenshotLoop dirname data 0 count), [])) := by
  have hspec := screenshotLoop_spec dirname data count 0
  rw [← List.range_eq_range'] at hspec
  refine ⟨?_, hspec, ?_⟩
  · rw [hspec, List.length_map]
    calc (((List.range count).filter (fun j => (data.getD j none).isSome))).length
        ≤ (List.range count).length := List.length_filter_le _ _
      _ = count := List.length_range count
  · intro hresp
    simp [generateScreenshots, retryFrom, hresp]

/-- Witness for C10: six requested slots of which slots 1 and 4 lack a URL
yield four paths, in increasing slot order. -/
theorem c10_witness :
    (fun i : Nat =>
      (match i with
      | 0 => AttemptOutcome.success
          [some "u1".toList, none, some "u3".toList, some "u4".toList, none, some "u6".toList]
      | _ => AttemptOutcome.failure none : AttemptOutcome (List (Option Str)))) 0 =
      .success [some "u1".toList, none, some "u3".toList, some "u4".toList, none,
        some "u6".toList] ∧
    generateScreenshots
      (fun i : Nat =>
        match i with
        | 0 => AttemptOutcome.success
            [some "u1".toList, none, some "u3".toList, some "u4".toList, none, some "u6".toList]
        | _ => AttemptOutcome.failure none)
      "/app".toList 6 =
      (.ok (screenshotLoop "/app".toList
        [some "u1".toList, none, some "u3".toList, some "u4".toList, none, some "u6".toList]
        0 6), []) :=
  ⟨rfl,
   (c10_screenshots "/app".toList
     [some "u1".toList, none, some "u3".toList, some "u4".toList, none, some "u6".toList]
     6
     (fun i : Nat =>
       match i with
       | 0 => AttemptOutcome.success
           [some "u1".toList, none, some "u3".toList, some "u4".toList, none, some "u6".toList]
       | _ => AttemptOutcome.failure none)).2.2 rfl⟩

/-- C6: for a brief description longer than 279 characters, the form step
submits exactly its first 279 characters to the length-constrained field,
while the detailed description is submitted in full, untruncated, to the
two fields without a stated limit. -/
theorem c6_truncation (bd dd : Str) (h : 279 < bd.length) :
    formFills bd dd =
      [("Exchange onramp/offramp using".toList, bd.take 279),
       ("This project combines a state".toList, dd),
       ("This project uses the @".toList, dd),
       ("https://github.com/hackathon/".toList, submittedRepoUrl)] ∧
    (bd.take 279).length = 279 ∧
    bd.take 279 <+: bd := by
  refine ⟨?_, ?_, ?_⟩
  · simp [formFills, jsSlice]
  · rw [List.length_take]
    omega
  · exact ⟨bd.drop 279, List.take_append_drop 279 bd⟩

/-- Witness for C6 at a 280-character brief description. -/
theorem c6_witness :
    279 < (List.replicate 280 'a').length ∧
    (formFills (List.replicate 280 'a') "full detail".toList =
      [("Exchange onramp/offramp using".toList, (List.replicate 280 'a').take 279),
       ("This project combines a state".toList, "full detail".toList),
       ("This project uses the @".toList, "full detail".toList),
       ("https://github.com/hackathon/".toList, submittedRepoUrl)] ∧
    ((List.replicate 280 'a').take 279).length = 279 ∧
    (List.replicate 280 'a').take 279 <+: List.replicate 280 'a') :=
  ⟨by rw [List.length_replicate]; omega,
   c6_truncation (List.replicate 280 'a') "full detail".toList
     (by rw [List.length_replicate]; omega)⟩

/-- C8 counterexample: when README generation (the JSON extraction/parse
stage) fails, the run aborts with no partial result, but the temporary
clone directory has already been deleted (`fs.rmSync` on run.ts line 37 runs
before the text-generation calls), contradicting the claim that the
directory survives every post-clone failure. -/
theorem c8_counterexample :
    (generateReadmeRun (.ok "summary".toList) (fun _ => .error ())
        (fun _ => .ok "desc".toList)).1 = .error .readmeGenStage ∧
    (generateReadmeRun (.ok "summary".toList) (fun _ => .error ())
        (fun _ => .ok "desc".toList)).2 ≠ true :=
  ⟨rfl, by decide⟩

/-- C8 amended: every post-clone stage failure aborts the run with no
partial result; the temporary clone directory survives exactly the
summarization-stage failures — on text-generation or JSON-parse failures it
was already deleted by the unconditional `fs.rmSync` that runs after
summarization, not as failure cleanup. -/
theorem c8_cleanup_amended :
    (∀ (e : Unit) (rr : Str → Except Unit ReadmeResult) (dr : Str → Except Unit Str),
      generateReadmeRun (.error e) rr dr = (.error .summarizeStage, true)) ∧
    (∀ (s : Str) (rr : Str → Except Unit ReadmeResult) (dr : Str → Except Unit Str)
      (e : Unit), rr s = .error e →
      generateReadmeRun (.ok s) rr dr = (.error .readmeGenStage, false)) ∧
    (∀ (s : Str) (rr : Str → Except Unit ReadmeResult) (dr : Str → Except Unit Str)
      (r : ReadmeResult) (e : Unit), rr s = .ok r → dr s = .error e →
      generateReadmeRun (.ok s) rr dr = (.error .descGenStage, false)) := by
  refine ⟨fun e rr dr => rfl, ?_, ?_⟩
  · intro s rr dr e hrr
    simp [generateReadmeRun, hrr]
  · intro s rr dr r e hrr hdr
    simp [generateReadmeRun, hrr, hdr]

/-- Witness for the amended C8 at concrete stage outcomes. -/
theorem c8_witness :
    ((fun _ : Str => (Except.error () : Except Unit ReadmeResult)) "s".toList = .error ()) ∧
    generateReadmeRun (.error ()) (fun _ => .error ()) (fun _ => .ok "d".toList) =
      (.error .summarizeStage, true) ∧
    generateReadmeRun (.ok "s".toList) (fun _ => .error ()) (fun _ => .ok "d".toList) =
      (.error .readmeGenStage, false) ∧
    generateReadmeRun (.ok "s".toList) (fun _ => .ok ⟨"p".toList, "b".toList, "r".toList⟩)
        (fun _ => .error ()) =
      (.error .descGenStage, false) :=
  ⟨rfl,
   c8_cleanup_amended.1 () (fun _ => .error ()) (fun _ => .ok "d".toList),
   c8_cleanup_amended.2.1 "s".toList (fun _ => .error ()) (fun _ => .ok "d".toList) () rfl,
   c8_cleanup_amended.2.2 "s".toList (fun _ => .ok ⟨"p".toList, "b".toList, "r".toList⟩)
     (fun _ => .error ()) ⟨"p".toList, "b".toList, "r".toList⟩ () rfl rfl⟩
